import Mathlib

/-!
Verification of the taiga resource-logic core: a shallow embedding of
`taiga_halo2/src/circuit/resource_logic_bytecode.rs` (representation dispatch,
transparent verification, binding checks, application-bytecode aggregation),
of the partial-fulfillment intent checks in
`src/circuit/resource_logic_examples/partial_fulfillment_intent/label.rs`,
and of the sudoku puzzle-validity constraints in
`deprecated/taiga_sudoku/app_resource_logic.rs`, together with theorems about
their behaviour.

Machine integers and field elements: `pallas::Base` is the Pallas base field;
it is embedded as `ZMod pallasP` where concrete evaluation is needed, and the
claims that hold for every field with decidable equality are stated over an
arbitrary such field.  Rust panics (out-of-bounds slice indexing) are embedded
as `Option.none`; fallible operations return `Except TransactionError`.
-/

namespace Taiga

/-- The Pallas base field modulus
0x40000000000000000000000000000000224698fc094cf91b992d30ed00000001. -/
def pallasP : Nat :=
  28948022309329048855892746252171976963363056481941560715954676764349967630337

/-- The field `pallas::Base` in which nullifiers, commitments and public
inputs live. -/
abbrev PallasF := ZMod pallasP

/-- The error variants of `TransactionError` (src/error.rs) that the
resource-logic bytecode layer can produce. -/
inductive TransactionError where
  | InvalidResourceLogicRepresentation
  | InconsistentNullifier
  | InconsistentOutputResourceCommitment
  | InconsistentOwnedResourceID
  deriving DecidableEq

/-- `ResourceLogicRepresentation` from resource_logic_bytecode.rs: the tag
selecting how a logic's bytecode is interpreted.  The VampIR payload (a byte
vector naming a circuit file) is embedded as a list of naturals. -/
inductive ResourceLogicRepresentation where
  | VampIR (circuit : List Nat)
  | Trivial
  | Token
  | SignatureVerification
  | Receiver
  | PartialFulfillmentIntent
  | OrRelationIntent
  | CascadeIntent
  deriving DecidableEq

/-- `ResourceLogicByteCode` from resource_logic_bytecode.rs: a representation
tag plus opaque input bytes. -/
structure ResourceLogicByteCode where
  circuit : ResourceLogicRepresentation
  inputs : List Nat
  deriving DecidableEq

/-- `ApplicationByteCode` from resource_logic_bytecode.rs: one mandatory
application logic bytecode plus the dynamic logic bytecodes. -/
structure ApplicationByteCode where
  app_resource_logic_bytecode : ResourceLogicByteCode
  dynamic_resource_logic_bytecode : List ResourceLogicByteCode

/-- The cargo feature gates that appear as `#[cfg(feature = ...)]` on the
match arms of `generate_proof` and `verify_transparently`: `borsh` gates the
`Trivial` arm, `examples` gates the six example-logic arms.  A build is a pair
of booleans saying which features are compiled in. -/
structure Features where
  borsh : Bool
  examples : Bool

/-- Modelled from the spec: the reserved public-input slots are the first
entries, in fixed order owned-resource-id, nullifier-1, nullifier-2,
commitment-1, commitment-2 (the constants of src/constant.rs are not part of
the sources under verification). -/
def RESOURCE_LOGIC_CIRCUIT_OWNED_RESOURCE_ID_PUBLIC_INPUT_IDX : Nat := 0

/-- Modelled from the spec: index of the first nullifier slot. -/
def RESOURCE_LOGIC_CIRCUIT_NULLIFIER_ONE_PUBLIC_INPUT_IDX : Nat := 1

/-- Modelled from the spec: index of the second nullifier slot. -/
def RESOURCE_LOGIC_CIRCUIT_NULLIFIER_TWO_PUBLIC_INPUT_IDX : Nat := 2

/-- Modelled from the spec: index of the first output-commitment slot. -/
def RESOURCE_LOGIC_CIRCUIT_OUTPUT_CM_ONE_PUBLIC_INPUT_IDX : Nat := 3

/-- Modelled from the spec: index of the second output-commitment slot. -/
def RESOURCE_LOGIC_CIRCUIT_OUTPUT_CM_TWO_PUBLIC_INPUT_IDX : Nat := 4

variable {F : Type}

/-- Modelled from the spec: `ResourceLogicPublicInputs::get_from_index` reads
one slot of the fixed-width public-input vector (the wrapper type lives in
src/circuit/resource_logic_circuit.rs, outside the sources under
verification); the vector always has its full fixed width, so reading a
reserved slot is always in bounds and a total default is safe. -/
def get_from_index [Zero F] (public_inputs : List F) (idx : Nat) : F :=
  public_inputs.getD idx 0

/-- The unordered-pair test of `ResourceLogicByteCode::verify_transparently`
(lines 199-202 and 213-216 of resource_logic_bytecode.rs):
`(c[0] == l0 && c[1] == l1) || (c[0] == l1 && c[1] == l0)` with Rust's
short-circuit evaluation; an out-of-bounds slice index is a panic, embedded
as `none`. -/
def pairMatch [DecidableEq F] (c : List F) (l0 l1 : F) : Option Bool :=
  match c.get? 0 with
  | none => none
  | some c0 =>
    let d1 : Option Bool :=
      if c0 = l0 then
        match c.get? 1 with
        | none => none
        | some c1 => some (decide (c1 = l1))
      else some false
    match d1 with
    | none => none
    | some true => some true
    | some false =>
      if c0 = l1 then
        match c.get? 1 with
        | none => none
        | some c1 => some (decide (c1 = l0))
      else some false

/-- Lines 192-221 of `ResourceLogicByteCode::verify_transparently`: read the
two nullifier slots of the recomputed public inputs and match them against
the compliance nullifiers as an unordered pair (`InconsistentNullifier` on
mismatch), then likewise the two commitment slots against the compliance
commitments (`InconsistentOutputResourceCommitment` on mismatch), and on
success return the owned-resource-id slot. -/
def bindingCheck [DecidableEq F] [Zero F] (public_inputs : List F)
    (compliance_nfs compliance_cms : List F) :
    Option (Except TransactionError F) :=
  let lnf0 := get_from_index public_inputs RESOURCE_LOGIC_CIRCUIT_NULLIFIER_ONE_PUBLIC_INPUT_IDX
  let lnf1 := get_from_index public_inputs RESOURCE_LOGIC_CIRCUIT_NULLIFIER_TWO_PUBLIC_INPUT_IDX
  match pairMatch compliance_nfs lnf0 lnf1 with
  | none => none
  | some false => some (Except.error TransactionError.InconsistentNullifier)
  | some true =>
    let lcm0 := get_from_index public_inputs RESOURCE_LOGIC_CIRCUIT_OUTPUT_CM_ONE_PUBLIC_INPUT_IDX
    let lcm1 := get_from_index public_inputs RESOURCE_LOGIC_CIRCUIT_OUTPUT_CM_TWO_PUBLIC_INPUT_IDX
    match pairMatch compliance_cms lcm0 lcm1 with
    | none => none
    | some false => some (Except.error TransactionError.InconsistentOutputResourceCommitment)
    | some true =>
      some (Except.ok (get_from_index public_inputs
        RESOURCE_LOGIC_CIRCUIT_OWNED_RESOURCE_ID_PUBLIC_INPUT_IDX))

/-- The dispatch half of `ResourceLogicByteCode::verify_transparently`
(lines 138-190): select the logic by its representation tag and recompute its
public inputs by direct transparent evaluation.  Each compiled-in arm calls
the selected logic's own `verify_transparently` (its implementations live
outside the sources under verification and are abstracted as `eval`); a tag
whose feature gate is absent falls through to
`Err(InvalidResourceLogicRepresentation)`. -/
def ResourceLogicByteCode.transparentPublicInputs (feat : Features)
    (eval : ResourceLogicByteCode → Except TransactionError (List F))
    (bc : ResourceLogicByteCode) : Except TransactionError (List F) :=
  match bc.circuit with
  | ResourceLogicRepresentation.VampIR _ => eval bc
  | ResourceLogicRepresentation.Trivial =>
    if feat.borsh then eval bc
    else Except.error TransactionError.InvalidResourceLogicRepresentation
  | ResourceLogicRepresentation.Token =>
    if feat.examples then eval bc
    else Except.error TransactionError.InvalidResourceLogicRepresentation
  | ResourceLogicRepresentation.SignatureVerification =>
    if feat.examples then eval bc
    else Except.error TransactionError.InvalidResourceLogicRepresentation
  | ResourceLogicRepresentation.Receiver =>
    if feat.examples then eval bc
    else Except.error TransactionError.InvalidResourceLogicRepresentation
  | ResourceLogicRepresentation.PartialFulfillmentIntent =>
    if feat.examples then eval bc
    else Except.error TransactionError.InvalidResourceLogicRepresentation
  | ResourceLogicRepresentation.OrRelationIntent =>
    if feat.examples then eval bc
    else Except.error TransactionError.InvalidResourceLogicRepresentation
  | ResourceLogicRepresentation.CascadeIntent =>
    if feat.examples then eval bc
    else Except.error TransactionError.InvalidResourceLogicRepresentation

/-- `ResourceLogicByteCode::verify_transparently` (lines 132-222): recompute
the public inputs by transparent evaluation (propagating its error), then run
the binding check against the compliance nullifiers and commitments.  `none`
is a panic. -/
def ResourceLogicByteCode.verify_transparently [DecidableEq F] [Zero F]
    (feat : Features) (eval : ResourceLogicByteCode → Except TransactionError (List F))
    (bc : ResourceLogicByteCode) (compliance_nfs compliance_cms : List F) :
    Option (Except TransactionError F) :=
  match bc.transparentPublicInputs feat eval with
  | Except.error e => some (Except.error e)
  | Except.ok public_inputs => bindingCheck public_inputs compliance_nfs compliance_cms

/-- `ResourceLogicByteCode::generate_proof` (lines 75-129): each compiled-in
arm instantiates the selected circuit and returns `Ok` of its verifying info
(the provers live outside the sources under verification and are abstracted
as the total function `prove`); a tag whose feature gate is absent falls
through to `Err(InvalidResourceLogicRepresentation)`. -/
def ResourceLogicByteCode.generate_proof {V : Type} (feat : Features)
    (prove : ResourceLogicByteCode → V) (bc : ResourceLogicByteCode) :
    Except TransactionError V :=
  match bc.circuit with
  | ResourceLogicRepresentation.VampIR _ => Except.ok (prove bc)
  | ResourceLogicRepresentation.Trivial =>
    if feat.borsh then Except.ok (prove bc)
    else Except.error TransactionError.InvalidResourceLogicRepresentation
  | ResourceLogicRepresentation.Token =>
    if feat.examples then Except.ok (prove bc)
    else Except.error TransactionError.InvalidResourceLogicRepresentation
  | ResourceLogicRepresentation.SignatureVerification =>
    if feat.examples then Except.ok (prove bc)
    else Except.error TransactionError.InvalidResourceLogicRepresentation
  | ResourceLogicRepresentation.Receiver =>
    if feat.examples then Except.ok (prove bc)
    else Except.error TransactionError.InvalidResourceLogicRepresentation
  | ResourceLogicRepresentation.PartialFulfillmentIntent =>
    if feat.examples then Except.ok (prove bc)
    else Except.error TransactionError.InvalidResourceLogicRepresentation
  | ResourceLogicRepresentation.OrRelationIntent =>
    if feat.examples then Except.ok (prove bc)
    else Except.error TransactionError.InvalidResourceLogicRepresentation
  | ResourceLogicRepresentation.CascadeIntent =>
    if feat.examples then Except.ok (prove bc)
    else Except.error TransactionError.InvalidResourceLogicRepresentation

/-- `ResourceLogicVerifyingInfoSet::new` groups the mandatory logic's
verifying info with the dynamic logics' infos (src/shielded_ptx.rs, outside
the sources under verification; only its role as a pair is needed). -/
structure ResourceLogicVerifyingInfoSet (V : Type) where
  app_resource_logic_verifying_info : V
  app_dynamic_resource_logic_verifying_info : List V

/-- The `collect::<Result<Vec<_>, _>>()` of
`ApplicationByteCode::generate_proofs` (lines 240-244): map `generate_proof`
over the dynamic bytecodes, stopping at the first error. -/
def collectDynamicProofs {V : Type} (feat : Features)
    (prove : ResourceLogicByteCode → V) :
    List ResourceLogicByteCode → Except TransactionError (List V)
  | [] => Except.ok []
  | bc :: rest =>
    match bc.generate_proof feat prove with
    | Except.error e => Except.error e
    | Except.ok v =>
      match collectDynamicProofs feat prove rest with
      | Except.error e => Except.error e
      | Except.ok vs => Except.ok (v :: vs)

/-- `ApplicationByteCode::generate_proofs` (lines 236-249): prove the
mandatory logic first (propagating its error with `?`), then collect the
dynamic logics' proofs in list order, first error short-circuiting. -/
def ApplicationByteCode.generate_proofs {V : Type} (feat : Features)
    (prove : ResourceLogicByteCode → V) (app : ApplicationByteCode) :
    Except TransactionError (ResourceLogicVerifyingInfoSet V) :=
  match app.app_resource_logic_bytecode.generate_proof feat prove with
  | Except.error e => Except.error e
  | Except.ok a =>
    match collectDynamicProofs feat prove app.dynamic_resource_logic_bytecode with
    | Except.error e => Except.error e
    | Except.ok ds => Except.ok ⟨a, ds⟩

/-- The loop of `ApplicationByteCode::verify_transparently` (lines 260-266):
verify each dynamic logic in list order, propagating its panic or error, and
fail with `InconsistentOwnedResourceID` as soon as one reports an
owned-resource-id different from the mandatory logic's. -/
def verifyDynamicResourceLogics [DecidableEq F] [Zero F] (feat : Features)
    (eval : ResourceLogicByteCode → Except TransactionError (List F))
    (compliance_nfs compliance_cms : List F) (owned_resource_id : F) :
    List ResourceLogicByteCode → Option (Except TransactionError F)
  | [] => some (Except.ok owned_resource_id)
  | bc :: rest =>
    match bc.verify_transparently feat eval compliance_nfs compliance_cms with
    | none => none
    | some (Except.error e) => some (Except.error e)
    | some (Except.ok id) =>
      if id ≠ owned_resource_id then
        some (Except.error TransactionError.InconsistentOwnedResourceID)
      else
        verifyDynamicResourceLogics feat eval compliance_nfs compliance_cms
          owned_resource_id rest

/-- `ApplicationByteCode::verify_transparently` (lines 252-268): verify the
mandatory logic first (propagating its panic or error with `?`), then the
dynamic logics in list order, requiring every returned owned-resource-id to
equal the mandatory logic's, which is returned on success. -/
def ApplicationByteCode.verify_transparently [DecidableEq F] [Zero F]
    (feat : Features) (eval : ResourceLogicByteCode → Except TransactionError (List F))
    (app : ApplicationByteCode) (compliance_nfs compliance_cms : List F) :
    Option (Except TransactionError F) :=
  match app.app_resource_logic_bytecode.verify_transparently feat eval
      compliance_nfs compliance_cms with
  | none => none
  | some (Except.error e) => some (Except.error e)
  | some (Except.ok owned_resource_id) =>
    verifyDynamicResourceLogics feat eval compliance_nfs compliance_cms
      owned_resource_id app.dynamic_resource_logic_bytecode

/-- Modelled from the spec: the ConditionalEqual gadget
(src/circuit/gadgets/conditional_equal.rs, outside the sources under
verification) constrains `flag * (a - b) == 0`. -/
def conditionalEqual [Ring F] (flag a b : F) : Prop :=
  flag * (a - b) = 0

/-- The witnessed label values of the partial-fulfillment intent
(`PartialFulfillmentIntentLabel` in label.rs). -/
structure PartialFulfillmentIntentLabel (F : Type) where
  token_resource_logic_vk : F
  sold_token : F
  sold_token_quantity : F
  bought_token : F
  bought_token_quantity : F
  receiver_npk : F
  receiver_value : F

/-- The fields of a resource's variables that the partial-fulfillment checks
read (`resource_variables.logic/label/npk/value/quantity` in label.rs). -/
structure ResourceVariables (F : Type) where
  logic : F
  label : F
  npk : F
  value : F
  quantity : F

/-- `PartialFulfillmentIntentLabel::is_partial_fulfillment_checks`
(label.rs lines 180-312) as the conjunction of the constraints it assigns:
the gating flag is `is_input_resource * (bought_token_quantity -
output_resource[0].quantity)`; four ConditionalEqual constraints tie the
returned resource (output 1) to the label, and one ConditionalEqual
constraint asserts the cross-multiplied ratio equation
`bought_token_quantity * (sold_token_quantity - output_resource[1].quantity)
== sold_token_quantity * output_resource[0].quantity`; no division occurs. -/
def PartialFulfillmentIntentLabel.is_partial_fulfillment_checks [Ring F]
    (lbl : PartialFulfillmentIntentLabel F) (is_input_resource : F)
    (out0 out1 : ResourceVariables F) : Prop :=
  let is_partial_fulfillment :=
    is_input_resource * (lbl.bought_token_quantity - out0.quantity)
  conditionalEqual is_partial_fulfillment lbl.token_resource_logic_vk out1.logic ∧
  conditionalEqual is_partial_fulfillment lbl.sold_token out1.label ∧
  conditionalEqual is_partial_fulfillment lbl.receiver_npk out1.npk ∧
  conditionalEqual is_partial_fulfillment lbl.receiver_value out1.value ∧
  conditionalEqual is_partial_fulfillment
    (lbl.bought_token_quantity * (lbl.sold_token_quantity - out1.quantity))
    (lbl.sold_token_quantity * out0.quantity)

/-- The blank-cell remapping of `SudokuAppResourceLogicCircuit::check_puzzle`
(app_resource_logic.rs lines 188-203): the cell at flat index `i` becomes
`10 + i` when it is zero and is kept otherwise; `i` is the enumeration
index. -/
def nonZeroSudokuCells [AddGroupWithOne F] [DecidableEq F] :
    Nat → List F → List F
  | _, [] => []
  | i, x :: xs =>
    (if x = 0 then ((10 + i : Nat) : F) else x) :: nonZeroSudokuCells (i + 1) xs

/-- The rows of `check_puzzle`: `chunks(9)` over the 81 remapped cells. -/
def sudokuRows (cells : List F) : List (List F) :=
  (List.range 9).map (fun r => (cells.drop (9 * r)).take 9)

/-- The columns of `check_puzzle`: for each column index, the entry of each
row at that index (`row[i - 1]` over `i in 1..10` in the source). -/
def sudokuCols [Zero F] (rows : List (List F)) : List (List F) :=
  (List.range 9).map (fun c => rows.map (fun row => row.getD c 0))

/-- The nine 3-by-3 squares of `check_puzzle`: for each block row `i` and
block column `j`, the concatenation of the three length-3 slices
`rows[3i..3i+3][3j..3j+3]`. -/
def sudokuSquares (rows : List (List F)) : List (List F) :=
  (List.range 3).flatMap (fun i =>
    (List.range 3).map (fun j =>
      (((rows.drop (3 * i)).take 3).map (fun line => (line.drop (3 * j)).take 3)).flatten))

/-- The 27 lines `[rows, cols, squares].concat()` of `check_puzzle`. -/
def sudokuLines [Zero F] (cells : List F) : List (List F) :=
  sudokuRows cells ++ sudokuCols (sudokuRows cells) ++ sudokuSquares (sudokuRows cells)

/-- The pairwise-difference product of one line (the `cell_lhs` loop of
`check_puzzle`, lines 235-258): starting from 1, multiply by
`perm[i] - perm[j]` for every `0 <= i < j < 9`. -/
def linePairProduct [Ring F] (perm : List F) : F :=
  (List.range 9).foldl (fun acc i =>
    (List.range' (i + 1) (8 - i)).foldl
      (fun acc2 j => acc2 * (perm.getD i 0 - perm.getD j 0)) acc) 1

/-- Satisfiability of one line's non-zero constraint (lines 259-283): the
prover witnesses an inverse `cell_lhs_inv` and the circuit constrains
`cell_lhs * cell_lhs_inv == 1`. -/
def lineNonZeroConstraintSat [Ring F] (perm : List F) : Prop :=
  ∃ inv : F, linePairProduct perm * inv = 1

/-- Satisfiability of the whole `check_puzzle` constraint system: every one
of the 27 lines of the remapped grid satisfies its non-zero constraint. -/
def check_puzzle_sat [Ring F] [DecidableEq F] (state : List F) : Prop :=
  ∀ perm ∈ sudokuLines (nonZeroSudokuCells 0 state), lineNonZeroConstraintSat perm

/-- 11 is prime, so `ZMod 11` is a field; it hosts the concrete sudoku
evaluations. -/
instance fact_eleven_prime : Fact (Nat.Prime 11) := ⟨by norm_num⟩

/-- The reference solved grid of the spec's testable properties (also the
grid of deprecated/simple_sudoku's test), flattened row-major. -/
def sudokuSolvedGrid : List (ZMod 11) :=
  [7, 6, 9, 5, 3, 8, 1, 2, 4,
   2, 4, 3, 7, 1, 9, 6, 5, 8,
   8, 5, 1, 4, 6, 2, 9, 7, 3,
   4, 8, 6, 9, 7, 5, 3, 1, 2,
   5, 3, 7, 6, 2, 1, 4, 8, 9,
   1, 9, 2, 8, 4, 3, 7, 6, 5,
   6, 1, 8, 3, 5, 4, 2, 9, 7,
   9, 7, 4, 2, 8, 6, 5, 3, 1,
   3, 2, 5, 1, 9, 7, 8, 4, 6]

/-- The reference solved grid with one duplicated digit: cell (0,1) changed
from 6 to 7, so the first row holds the digit 7 twice. -/
def sudokuDuplicateGrid : List (ZMod 11) :=
  [7, 7, 9, 5, 3, 8, 1, 2, 4,
   2, 4, 3, 7, 1, 9, 6, 5, 8,
   8, 5, 1, 4, 6, 2, 9, 7, 3,
   4, 8, 6, 9, 7, 5, 3, 1, 2,
   5, 3, 7, 6, 2, 1, 4, 8, 9,
   1, 9, 2, 8, 4, 3, 7, 6, 5,
   6, 1, 8, 3, 5, 4, 2, 9, 7,
   9, 7, 4, 2, 8, 6, 5, 3, 1,
   3, 2, 5, 1, 9, 7, 8, 4, 6]

/-- Modelled from the spec: `RandomSeed` (src/resource.rs, outside the
sources under verification) is an opaque random seed; only its role as a
deterministic source of derived padding values matters here. -/
structure RandomSeed where
  seed : Nat

/-- Modelled from the spec: the padding values are deterministically derived
from the seed (the concrete derivation is unspecified by the spec; any
deterministic function realises the claimed properties). -/
def RandomSeed.derivedPadding [AddMonoidWithOne F] (s : RandomSeed) (len : Nat) :
    List F :=
  (List.range len).map (fun i => ((s.seed + i : Nat) : F))

/-- Modelled from the spec:
`ResourceLogicPublicInputs::get_public_input_padding(used_len, seed)`
(src/circuit/resource_logic_circuit.rs, outside the sources under
verification) fills the remaining fixed-capacity slots with values derived
from the seed, and fails (an error / a panic, embedded as `none`) when the
used length exceeds the fixed capacity. -/
def get_public_input_padding [AddMonoidWithOne F] (capacity used_len : Nat)
    (s : RandomSeed) : Option (List F) :=
  if used_len ≤ capacity then some (RandomSeed.derivedPadding (F := F) s (capacity - used_len))
  else none

/-! ## Helper lemmas -/

theorem pairMatch_pair [DecidableEq F] (a b l0 l1 : F) :
    pairMatch [a, b] l0 l1
      = some (decide ((a = l0 ∧ b = l1) ∨ (a = l1 ∧ b = l0))) := by
  by_cases h0 : a = l0 <;> by_cases h1 : b = l1 <;>
    by_cases h2 : a = l1 <;> by_cases h3 : b = l0 <;>
      simp [pairMatch, List.get?, h0, h1, h2, h3] <;> simp_all

theorem pairMatch_nil [DecidableEq F] (l0 l1 : F) : pairMatch [] l0 l1 = none := by
  simp [pairMatch, List.get?]

theorem pairMatch_cons_cons [DecidableEq F] (a b : F) (rest : List F) (l0 l1 : F) :
    pairMatch (a :: b :: rest) l0 l1 = pairMatch [a, b] l0 l1 := rfl

theorem pairMatch_isSome_of_two_le [DecidableEq F] (c : List F) (l0 l1 : F)
    (h : 2 ≤ c.length) : ∃ r, pairMatch c l0 l1 = some r := by
  match c, h with
  | a :: b :: rest, _ =>
    rw [pairMatch_cons_cons, pairMatch_pair]
    exact ⟨_, rfl⟩

theorem pairMatch_singleton_mismatch [DecidableEq F] (x l0 l1 : F)
    (h0 : x ≠ l0) (h1 : x ≠ l1) : pairMatch [x] l0 l1 = some false := by
  simp [pairMatch, List.get?, h0, h1]

/-! ## Claim theorems -/

/-- C4: `ResourceLogicByteCode::generate_proof` returns
`InvalidResourceLogicRepresentation` exactly when the bytecode tag is a
catalogue entry whose feature gate is absent from the build (`Trivial`
without `borsh`, or one of the six example logics without `examples`); it
produces no other error; a VampIR-tagged bytecode never takes this error
path; and in a build with both features enabled no tag errs. -/
theorem claim_c4 {V : Type} (feat : Features) (prove : ResourceLogicByteCode → V)
    (bc : ResourceLogicByteCode) :
    (bc.generate_proof feat prove
        = Except.error TransactionError.InvalidResourceLogicRepresentation ↔
      ((bc.circuit = ResourceLogicRepresentation.Trivial ∧ feat.borsh = false) ∨
       ((bc.circuit = ResourceLogicRepresentation.Token ∨
         bc.circuit = ResourceLogicRepresentation.SignatureVerification ∨
         bc.circuit = ResourceLogicRepresentation.Receiver ∨
         bc.circuit = ResourceLogicRepresentation.PartialFulfillmentIntent ∨
         bc.circuit = ResourceLogicRepresentation.OrRelationIntent ∨
         bc.circuit = ResourceLogicRepresentation.CascadeIntent) ∧
        feat.examples = false)))
    ∧ (∀ e, bc.generate_proof feat prove = Except.error e →
        e = TransactionError.InvalidResourceLogicRepresentation)
    ∧ (∀ bytes, bc.circuit = ResourceLogicRepresentation.VampIR bytes →
        bc.generate_proof feat prove = Except.ok (prove bc))
    ∧ (feat.borsh = true → feat.examples = true →
        ∀ e, bc.generate_proof feat prove ≠ Except.error e) := by
  obtain ⟨br, ex⟩ := feat
  rcases bc with ⟨circ, inputs⟩
  cases circ <;> cases br <;> cases ex <;>
    simp [ResourceLogicByteCode.generate_proof]

/-- C1: when the transparent evaluation of a resource-logic bytecode yields
the public-input vector `public_inputs`, `verify_transparently` against the
compliance pair `[n0, n1]` / `[m0, m1]` succeeds with the owned-resource-id
slot exactly when the two nullifier slots match the compliance nullifiers
under the identity or swapped pairing and likewise for the commitment slots;
a nullifier-pair mismatch yields `InconsistentNullifier` and a
commitment-pair mismatch yields `InconsistentOutputResourceCommitment`. -/
theorem claim_c1 [DecidableEq F] [Zero F] (feat : Features)
    (eval : ResourceLogicByteCode → Except TransactionError (List F))
    (bc : ResourceLogicByteCode) (public_inputs : List F) (n0 n1 m0 m1 : F)
    (hpi : bc.transparentPublicInputs feat eval = Except.ok public_inputs) :
    (bc.verify_transparently feat eval [n0, n1] [m0, m1]
        = some (Except.ok (get_from_index public_inputs
            RESOURCE_LOGIC_CIRCUIT_OWNED_RESOURCE_ID_PUBLIC_INPUT_IDX)) ↔
      (((n0 = get_from_index public_inputs
            RESOURCE_LOGIC_CIRCUIT_NULLIFIER_ONE_PUBLIC_INPUT_IDX ∧
         n1 = get_from_index public_inputs
            RESOURCE_LOGIC_CIRCUIT_NULLIFIER_TWO_PUBLIC_INPUT_IDX) ∨
        (n0 = get_from_index public_inputs
            RESOURCE_LOGIC_CIRCUIT_NULLIFIER_TWO_PUBLIC_INPUT_IDX ∧
         n1 = get_from_index public_inputs
            RESOURCE_LOGIC_CIRCUIT_NULLIFIER_ONE_PUBLIC_INPUT_IDX)) ∧
       ((m0 = get_from_index public_inputs
            RESOURCE_LOGIC_CIRCUIT_OUTPUT_CM_ONE_PUBLIC_INPUT_IDX ∧
         m1 = get_from_index public_inputs
            RESOURCE_LOGIC_CIRCUIT_OUTPUT_CM_TWO_PUBLIC_INPUT_IDX) ∨
        (m0 = get_from_index public_inputs
            RESOURCE_LOGIC_CIRCUIT_OUTPUT_CM_TWO_PUBLIC_INPUT_IDX ∧
         m1 = get_from_index public_inputs
            RESOURCE_LOGIC_CIRCUIT_OUTPUT_CM_ONE_PUBLIC_INPUT_IDX))))
    ∧ (bc.verify_transparently feat eval [n0, n1] [m0, m1]
        = some (Except.error TransactionError.InconsistentNullifier) ↔
      ¬ ((n0 = get_from_index public_inputs
            RESOURCE_LOGIC_CIRCUIT_NULLIFIER_ONE_PUBLIC_INPUT_IDX ∧
          n1 = get_from_index public_inputs
            RESOURCE_LOGIC_CIRCUIT_NULLIFIER_TWO_PUBLIC_INPUT_IDX) ∨
         (n0 = get_from_index public_inputs
            RESOURCE_LOGIC_CIRCUIT_NULLIFIER_TWO_PUBLIC_INPUT_IDX ∧
          n1 = get_from_index public_inputs
            RESOURCE_LOGIC_CIRCUIT_NULLIFIER_ONE_PUBLIC_INPUT_IDX)))
    ∧ (bc.verify_transparently feat eval [n0, n1] [m0, m1]
        = some (Except.error TransactionError.InconsistentOutputResourceCommitment) ↔
      (((n0 = get_from_index public_inputs
            RESOURCE_LOGIC_CIRCUIT_NULLIFIER_ONE_PUBLIC_INPUT_IDX ∧
         n1 = get_from_index public_inputs
            RESOURCE_LOGIC_CIRCUIT_NULLIFIER_TWO_PUBLIC_INPUT_IDX) ∨
        (n0 = get_from_index public_inputs
            RESOURCE_LOGIC_CIRCUIT_NULLIFIER_TWO_PUBLIC_INPUT_IDX ∧
         n1 = get_from_index public_inputs
            RESOURCE_LOGIC_CIRCUIT_NULLIFIER_ONE_PUBLIC_INPUT_IDX)) ∧
       ¬ ((m0 = get_from_index public_inputs
            RESOURCE_LOGIC_CIRCUIT_OUTPUT_CM_ONE_PUBLIC_INPUT_IDX ∧
          m1 = get_from_index public_inputs
            RESOURCE_LOGIC_CIRCUIT_OUTPUT_CM_TWO_PUBLIC_INPUT_IDX) ∨
         (m0 = get_from_index public_inputs
            RESOURCE_LOGIC_CIRCUIT_OUTPUT_CM_TWO_PUBLIC_INPUT_IDX ∧
          m1 = get_from_index public_inputs
            RESOURCE_LOGIC_CIRCUIT_OUTPUT_CM_ONE_PUBLIC_INPUT_IDX)))) := by
  unfold ResourceLogicByteCode.verify_transparently
  rw [hpi]
  by_cases hnf : ((n0 = get_from_index public_inputs
        RESOURCE_LOGIC_CIRCUIT_NULLIFIER_ONE_PUBLIC_INPUT_IDX ∧
      n1 = get_from_index public_inputs
        RESOURCE_LOGIC_CIRCUIT_NULLIFIER_TWO_PUBLIC_INPUT_IDX) ∨
     (n0 = get_from_index public_inputs
        RESOURCE_LOGIC_CIRCUIT_NULLIFIER_TWO_PUBLIC_INPUT_IDX ∧
      n1 = get_from_index public_inputs
        RESOURCE_LOGIC_CIRCUIT_NULLIFIER_ONE_PUBLIC_INPUT_IDX)) <;>
    by_cases hcm : ((m0 = get_from_index public_inputs
          RESOURCE_LOGIC_CIRCUIT_OUTPUT_CM_ONE_PUBLIC_INPUT_IDX ∧
        m1 = get_from_index public_inputs
          RESOURCE_LOGIC_CIRCUIT_OUTPUT_CM_TWO_PUBLIC_INPUT_IDX) ∨
       (m0 = get_from_index public_inputs
          RESOURCE_LOGIC_CIRCUIT_OUTPUT_CM_TWO_PUBLIC_INPUT_IDX ∧
        m1 = get_from_index public_inputs
          RESOURCE_LOGIC_CIRCUIT_OUTPUT_CM_ONE_PUBLIC_INPUT_IDX)) <;>
      simp [bindingCheck, pairMatch_pair, hnf, hcm]

/-- C1 witness: a concrete successful run over the Pallas base field, with
the recomputed public inputs `[0, 1, 2, 3, 4]` and compliance data matching
the reserved slots under the identity pairing. -/
theorem claim_c1_witness :
    ResourceLogicByteCode.verify_transparently (F := PallasF) ⟨true, true⟩
        (fun _ => Except.ok [0, 1, 2, 3, 4])
        ⟨ResourceLogicRepresentation.Trivial, []⟩ [1, 2] [3, 4]
      = some (Except.ok 0) :=
  (claim_c1 ⟨true, true⟩ (fun _ => Except.ok [0, 1, 2, 3, 4])
      ⟨ResourceLogicRepresentation.Trivial, []⟩ [0, 1, 2, 3, 4] 1 2 3 4
      rfl).1.mpr ⟨Or.inl ⟨by decide, by decide⟩, Or.inl ⟨by decide, by decide⟩⟩


/-- C9: the binding decision of `ResourceLogicByteCode::verify_transparently`
depends only on the five reserved slots of the recomputed public-input
vector: two transparent evaluations whose public inputs agree at the
owned-resource-id, the two nullifier and the two commitment indices produce
the same result for the same compliance data; the application-defined
remainder and the random padding never influence the outcome. -/
theorem claim_c9 [DecidableEq F] [Zero F] (feat : Features)
    (eval eval2 : ResourceLogicByteCode → Except TransactionError (List F))
    (bc : ResourceLogicByteCode) (pi1 pi2 nfs cms : List F)
    (hpi1 : bc.transparentPublicInputs feat eval = Except.ok pi1)
    (hpi2 : bc.transparentPublicInputs feat eval2 = Except.ok pi2)
    (h0 : get_from_index pi1 RESOURCE_LOGIC_CIRCUIT_OWNED_RESOURCE_ID_PUBLIC_INPUT_IDX
        = get_from_index pi2 RESOURCE_LOGIC_CIRCUIT_OWNED_RESOURCE_ID_PUBLIC_INPUT_IDX)
    (h1 : get_from_index pi1 RESOURCE_LOGIC_CIRCUIT_NULLIFIER_ONE_PUBLIC_INPUT_IDX
        = get_from_index pi2 RESOURCE_LOGIC_CIRCUIT_NULLIFIER_ONE_PUBLIC_INPUT_IDX)
    (h2 : get_from_index pi1 RESOURCE_LOGIC_CIRCUIT_NULLIFIER_TWO_PUBLIC_INPUT_IDX
        = get_from_index pi2 RESOURCE_LOGIC_CIRCUIT_NULLIFIER_TWO_PUBLIC_INPUT_IDX)
    (h3 : get_from_index pi1 RESOURCE_LOGIC_CIRCUIT_OUTPUT_CM_ONE_PUBLIC_INPUT_IDX
        = get_from_index pi2 RESOURCE_LOGIC_CIRCUIT_OUTPUT_CM_ONE_PUBLIC_INPUT_IDX)
    (h4 : get_from_index pi1 RESOURCE_LOGIC_CIRCUIT_OUTPUT_CM_TWO_PUBLIC_INPUT_IDX
        = get_from_index pi2 RESOURCE_LOGIC_CIRCUIT_OUTPUT_CM_TWO_PUBLIC_INPUT_IDX) :
    bc.verify_transparently feat eval nfs cms
      = bc.verify_transparently feat eval2 nfs cms := by
  unfold ResourceLogicByteCode.verify_transparently
  rw [hpi1, hpi2]
  simp only [bindingCheck]
  rw [h0, h1, h2, h3, h4]

/-- C9 witness: two concrete public-input vectors over the Pallas base field
that differ only in a non-reserved slot (55 against 66 at index 5) give the
same verification result. -/
theorem claim_c9_witness :
    ResourceLogicByteCode.verify_transparently (F := PallasF) ⟨true, true⟩
        (fun _ => Except.ok [0, 1, 2, 3, 4, 55])
        ⟨ResourceLogicRepresentation.Trivial, []⟩ [1, 2] [3, 4]
      = ResourceLogicByteCode.verify_transparently (F := PallasF) ⟨true, true⟩
        (fun _ => Except.ok [0, 1, 2, 3, 4, 66])
        ⟨ResourceLogicRepresentation.Trivial, []⟩ [1, 2] [3, 4] :=
  claim_c9 ⟨true, true⟩ (fun _ => Except.ok [0, 1, 2, 3, 4, 55])
    (fun _ => Except.ok [0, 1, 2, 3, 4, 66])
    ⟨ResourceLogicRepresentation.Trivial, []⟩
    [0, 1, 2, 3, 4, 55] [0, 1, 2, 3, 4, 66] [1, 2] [3, 4]
    rfl rfl rfl rfl rfl rfl rfl

/-- C10 counterexample: the claim says a compliance slice with fewer than two
elements makes `verify_transparently` panic, but a one-element nullifier
slice whose element matches neither logic nullifier slot short-circuits the
`&&`/`||` condition before the second index is touched, and the function
returns `InconsistentNullifier` instead of panicking. -/
theorem claim_c10_counterexample :
    (([9] : List PallasF).length < 2) ∧
    ResourceLogicByteCode.verify_transparently (F := PallasF) ⟨true, true⟩
        (fun _ => Except.ok [0, 1, 2, 3, 4])
        ⟨ResourceLogicRepresentation.Trivial, []⟩ [9] [3, 4]
      = some (Except.error TransactionError.InconsistentNullifier) := by
  exact ⟨by decide, by rfl⟩

/-- C10 amended: `verify_transparently` indexes the compliance slices without
a length check; once the binding phase is reached, an empty nullifier slice
panics, and when both slices have length at least 2 no out-of-bounds access
occurs; however a one-element nullifier slice whose element matches neither
logic nullifier slot returns `InconsistentNullifier` rather than
panicking. -/
theorem claim_c10_amended [DecidableEq F] [Zero F] (feat : Features)
    (eval : ResourceLogicByteCode → Except TransactionError (List F))
    (bc : ResourceLogicByteCode) (public_inputs nfs cms : List F)
    (hpi : bc.transparentPublicInputs feat eval = Except.ok public_inputs) :
    (nfs = [] → bc.verify_transparently feat eval nfs cms = none)
    ∧ (2 ≤ nfs.length → 2 ≤ cms.length →
        bc.verify_transparently feat eval nfs cms ≠ none)
    ∧ (∀ x, nfs = [x] →
        x ≠ get_from_index public_inputs
            RESOURCE_LOGIC_CIRCUIT_NULLIFIER_ONE_PUBLIC_INPUT_IDX →
        x ≠ get_from_index public_inputs
            RESOURCE_LOGIC_CIRCUIT_NULLIFIER_TWO_PUBLIC_INPUT_IDX →
        bc.verify_transparently feat eval nfs cms
          = some (Except.error TransactionError.InconsistentNullifier)) := by
  refine ⟨?_, ?_, ?_⟩
  · intro h
    subst h
    unfold ResourceLogicByteCode.verify_transparently
    rw [hpi]
    simp [bindingCheck, pairMatch_nil]
  · intro hn hc
    unfold ResourceLogicByteCode.verify_transparently
    rw [hpi]
    simp only [bindingCheck]
    obtain ⟨r, hr⟩ := pairMatch_isSome_of_two_le nfs _ _ hn
    rw [hr]
    cases r
    · simp
    · obtain ⟨r2, hr2⟩ := pairMatch_isSome_of_two_le cms _ _ hc
      rw [hr2]
      cases r2 <;> simp
  · intro x hx hne1 hne2
    subst hx
    unfold ResourceLogicByteCode.verify_transparently
    rw [hpi]
    simp only [bindingCheck]
    rw [pairMatch_singleton_mismatch x _ _ hne1 hne2]

/-- C10 amended witness: a concrete run over the Pallas base field with an
empty compliance-nullifier slice panics (embedded as `none`). -/
theorem claim_c10_amended_witness :
    ResourceLogicByteCode.verify_transparently (F := PallasF) ⟨true, true⟩
        (fun _ => Except.ok [0, 1, 2, 3, 4])
        ⟨ResourceLogicRepresentation.Trivial, []⟩ [] [3, 4] = none :=
  (claim_c10_amended ⟨true, true⟩ (fun _ => Except.ok [0, 1, 2, 3, 4])
      ⟨ResourceLogicRepresentation.Trivial, []⟩ [0, 1, 2, 3, 4] [] [3, 4]
      rfl).1 rfl

theorem verifyDynamics_ok_iff [DecidableEq F] [Zero F] (feat : Features)
    (eval : ResourceLogicByteCode → Except TransactionError (List F))
    (nfs cms : List F) (owned j : F) (l : List ResourceLogicByteCode) :
    verifyDynamicResourceLogics feat eval nfs cms owned l = some (Except.ok j) ↔
      (j = owned ∧ ∀ bc ∈ l,
        bc.verify_transparently feat eval nfs cms = some (Except.ok owned)) := by
  induction l with
  | nil => simp [verifyDynamicResourceLogics, eq_comm]
  | cons bc rest ih =>
    simp only [verifyDynamicResourceLogics]
    cases hv : bc.verify_transparently feat eval nfs cms with
    | none => simp [hv]
    | some r =>
      cases r with
      | error e => simp [hv]
      | ok id =>
        by_cases hid : id = owned
        · subst hid
          simp [hv, ih]
        · simp [hv, hid]

theorem verifyDynamics_append_ok [DecidableEq F] [Zero F] (feat : Features)
    (eval : ResourceLogicByteCode → Except TransactionError (List F))
    (nfs cms : List F) (owned : F) (pre l : List ResourceLogicByteCode)
    (h : ∀ bc ∈ pre,
      bc.verify_transparently feat eval nfs cms = some (Except.ok owned)) :
    verifyDynamicResourceLogics feat eval nfs cms owned (pre ++ l)
      = verifyDynamicResourceLogics feat eval nfs cms owned l := by
  induction pre with
  | nil => rfl
  | cons bc rest ih =>
    have hbc := h bc (by simp)
    simp only [List.cons_append, verifyDynamicResourceLogics, hbc]
    simp only [ne_eq, not_true_eq_false, if_false]
    exact ih (fun x hx => h x (by simp [hx]))

theorem collectDynamicProofs_error_of_mem {V : Type} (feat : Features)
    (prove : ResourceLogicByteCode → V) (pre post : List ResourceLogicByteCode)
    (d : ResourceLogicByteCode) (e : TransactionError)
    (hpre : ∀ bc ∈ pre, ∃ v, bc.generate_proof feat prove = Except.ok v)
    (hd : d.generate_proof feat prove = Except.error e) :
    collectDynamicProofs feat prove (pre ++ d :: post) = Except.error e := by
  induction pre with
  | nil => simp [collectDynamicProofs, hd]
  | cons bc rest ih =>
    obtain ⟨v, hv⟩ := hpre bc (by simp)
    simp only [List.cons_append, collectDynamicProofs, hv, List.append_eq]
    rw [ih (fun x hx => hpre x (by simp [hx]))]

/-- C2: `ApplicationByteCode::verify_transparently` returns `Ok(i)` exactly
when the mandatory logic's binding check returns `i` and every dynamic
logic's binding check also returns `i`; and whenever the aggregation reaches
a dynamic logic whose binding check returns an owned-resource-id different
from the mandatory logic's, the result is `InconsistentOwnedResourceID`. -/
theorem claim_c2 [DecidableEq F] [Zero F] (feat : Features)
    (eval : ResourceLogicByteCode → Except TransactionError (List F))
    (app : ApplicationByteCode) (nfs cms : List F) :
    (∀ i : F, app.verify_transparently feat eval nfs cms = some (Except.ok i) ↔
      (app.app_resource_logic_bytecode.verify_transparently feat eval nfs cms
          = some (Except.ok i) ∧
       ∀ bc ∈ app.dynamic_resource_logic_bytecode,
         bc.verify_transparently feat eval nfs cms = some (Except.ok i)))
    ∧ (∀ (i j : F) (pre post : List ResourceLogicByteCode)
          (d : ResourceLogicByteCode),
        app.app_resource_logic_bytecode.verify_transparently feat eval nfs cms
            = some (Except.ok i) →
        app.dynamic_resource_logic_bytecode = pre ++ d :: post →
        (∀ bc ∈ pre,
          bc.verify_transparently feat eval nfs cms = some (Except.ok i)) →
        d.verify_transparently feat eval nfs cms = some (Except.ok j) →
        j ≠ i →
        app.verify_transparently feat eval nfs cms
          = some (Except.error TransactionError.InconsistentOwnedResourceID)) := by
  constructor
  · intro i
    unfold ApplicationByteCode.verify_transparently
    cases hv : app.app_resource_logic_bytecode.verify_transparently feat eval nfs cms with
    | none => simp [hv]
    | some r =>
      cases r with
      | error e => simp [hv]
      | ok owned =>
        rw [verifyDynamics_ok_iff]
        constructor
        · rintro ⟨rfl, h⟩
          exact ⟨rfl, h⟩
        · rintro ⟨heq, h⟩
          have : owned = i := by
            simpa using heq
          subst this
          exact ⟨rfl, h⟩
  · intro i j pre post d hmand hdyn hpre hd hji
    have hkey : verifyDynamicResourceLogics feat eval nfs cms i
        app.dynamic_resource_logic_bytecode
        = some (Except.error TransactionError.InconsistentOwnedResourceID) := by
      rw [hdyn, verifyDynamics_append_ok feat eval nfs cms i pre _ hpre]
      simp only [verifyDynamicResourceLogics, hd]
      simp [hji]
    unfold ApplicationByteCode.verify_transparently
    rw [hmand]
    exact hkey

/-- C3: in `ApplicationByteCode::generate_proofs` and
`ApplicationByteCode::verify_transparently` the mandatory logic is processed
first and the dynamic logics in list order; the first failing sub-operation's
error is the overall result, whatever comes after it (the logics after the
failing one do not affect the outcome, and no partial result is returned). -/
theorem claim_c3 {V : Type} [DecidableEq F] [Zero F] (feat : Features)
    (prove : ResourceLogicByteCode → V)
    (eval : ResourceLogicByteCode → Except TransactionError (List F))
    (app : ApplicationByteCode) (nfs cms : List F) :
    (∀ e, app.app_resource_logic_bytecode.generate_proof feat prove = Except.error e →
        app.generate_proofs feat prove = Except.error e)
    ∧ (∀ (a : V) (pre post : List ResourceLogicByteCode)
          (d : ResourceLogicByteCode) (e : TransactionError),
        app.app_resource_logic_bytecode.generate_proof feat prove = Except.ok a →
        app.dynamic_resource_logic_bytecode = pre ++ d :: post →
        (∀ bc ∈ pre, ∃ v, bc.generate_proof feat prove = Except.ok v) →
        d.generate_proof feat prove = Except.error e →
        app.generate_proofs feat prove = Except.error e)
    ∧ (∀ e, app.app_resource_logic_bytecode.verify_transparently feat eval nfs cms
          = some (Except.error e) →
        app.verify_transparently feat eval nfs cms = some (Except.error e))
    ∧ (∀ (i : F) (pre post : List ResourceLogicByteCode)
          (d : ResourceLogicByteCode) (e : TransactionError),
        app.app_resource_logic_bytecode.verify_transparently feat eval nfs cms
            = some (Except.ok i) →
        app.dynamic_resource_logic_bytecode = pre ++ d :: post →
        (∀ bc ∈ pre,
          bc.verify_transparently feat eval nfs cms = some (Except.ok i)) →
        d.verify_transparently feat eval nfs cms = some (Except.error e) →
        app.verify_transparently feat eval nfs cms = some (Except.error e)) := by
  refine ⟨?_, ?_, ?_, ?_⟩
  · intro e he
    unfold ApplicationByteCode.generate_proofs
    rw [he]
  · intro a pre post d e ha hdyn hpre hd
    unfold ApplicationByteCode.generate_proofs
    rw [ha, hdyn, collectDynamicProofs_error_of_mem feat prove pre post d e hpre hd]
  · intro e he
    unfold ApplicationByteCode.verify_transparently
    rw [he]
  · intro i pre post d e hmand hdyn hpre hd
    have hkey : verifyDynamicResourceLogics feat eval nfs cms i
        app.dynamic_resource_logic_bytecode = some (Except.error e) := by
      rw [hdyn, verifyDynamics_append_ok feat eval nfs cms i pre _ hpre]
      simp only [verifyDynamicResourceLogics, hd]
    unfold ApplicationByteCode.verify_transparently
    rw [hmand]
    exact hkey

theorem conditionalEqual_iff {F : Type} [Field F] (flag a b : F) :
    conditionalEqual flag a b ↔ (flag = 0 ∨ a = b) := by
  unfold conditionalEqual
  rw [mul_eq_zero, sub_eq_zero]

/-- C5 counterexample: the claim says any flag other than 1 makes the
constraint `flag * (a - b) == 0` vacuous, but over the Pallas base field the
flag 2 (which is not 1) with `a = 0`, `b = 1` violates the constraint:
`2 * (0 - 1)` is not zero. -/
theorem claim_c5_counterexample :
    (2 : PallasF) ≠ 1 ∧ ¬ conditionalEqual (2 : PallasF) 0 1 := by
  constructor
  · decide
  · show ¬ ((2 : PallasF) * ((0 : PallasF) - 1) = 0)
    decide

/-- C5 amended: the ConditionalEqual gadget's constraint `flag * (a - b) == 0`
holds exactly when the flag is 0 or `a = b`: every nonzero flag (not only the
field element 1) forces `a = b`, and the constraint is vacuous exactly for
flag 0. -/
theorem claim_c5_amended {F : Type} [Field F] (flag a b : F) :
    conditionalEqual flag a b ↔ (flag = 0 ∨ a = b) :=
  conditionalEqual_iff flag a b

/-- C6: the partial-fulfillment gating flag is
`is_input_resource * (bought_token_quantity - output0.quantity)` and the
constraints of `is_partial_fulfillment_checks` hold exactly when that flag is
zero or the returned resource matches the label and the cross-multiplied
ratio equation `bought_token_quantity * (sold_token_quantity -
output1.quantity) = sold_token_quantity * output0.quantity` holds, with the
actual sold quantity computed as the expected sold quantity minus the
returned resource's quantity and no division anywhere. -/
theorem claim_c6 {F : Type} [Field F] (lbl : PartialFulfillmentIntentLabel F)
    (is_input_resource : F) (out0 out1 : ResourceVariables F) :
    lbl.is_partial_fulfillment_checks is_input_resource out0 out1 ↔
      (is_input_resource * (lbl.bought_token_quantity - out0.quantity) = 0 ∨
       (lbl.token_resource_logic_vk = out1.logic ∧
        lbl.sold_token = out1.label ∧
        lbl.receiver_npk = out1.npk ∧
        lbl.receiver_value = out1.value ∧
        lbl.bought_token_quantity * (lbl.sold_token_quantity - out1.quantity)
          = lbl.sold_token_quantity * out0.quantity)) := by
  unfold PartialFulfillmentIntentLabel.is_partial_fulfillment_checks
  simp only [conditionalEqual_iff]
  by_cases hf : is_input_resource * (lbl.bought_token_quantity - out0.quantity) = 0 <;>
    simp [hf]

/-- C8: for every capacity and seed, `get_public_input_padding` returns a
padding list of length `capacity - used_len` (so `used_len + padding_length =
capacity`) whenever `used_len` does not exceed the capacity, is deterministic
in the seed, and fails when `used_len` exceeds the capacity. -/
theorem claim_c8 {F : Type} [AddMonoidWithOne F] (capacity used_len : Nat)
    (s s2 : RandomSeed) :
    (used_len ≤ capacity → ∃ l : List F,
        get_public_input_padding (F := F) capacity used_len s = some l ∧
        l.length = capacity - used_len ∧ used_len + l.length = capacity)
    ∧ (s = s2 → get_public_input_padding (F := F) capacity used_len s
        = get_public_input_padding (F := F) capacity used_len s2)
    ∧ (capacity < used_len →
        get_public_input_padding (F := F) capacity used_len s = none) := by
  refine ⟨?_, ?_, ?_⟩
  · intro h
    refine ⟨RandomSeed.derivedPadding s (capacity - used_len), ?_, ?_, ?_⟩
    · simp [get_public_input_padding, h]
    · simp [RandomSeed.derivedPadding]
    · simp only [RandomSeed.derivedPadding, List.length_map, List.length_range]
      omega
  · intro h
    rw [h]
  · intro h
    simp [get_public_input_padding, Nat.not_le.mpr h]

theorem foldl_mul_list {α M : Type} [CommMonoid M] (f : α → M) (l : List α) (c : M) :
    l.foldl (fun acc x => acc * f x) c = c * (l.map f).prod := by
  induction l generalizing c with
  | nil => simp
  | cons x xs ih => simp [ih, mul_assoc]

theorem foldl_foldl_mul {α β M : Type} [CommMonoid M] (g : α → List β)
    (f : α → β → M) (outer : List α) (c : M) :
    outer.foldl (fun acc i => (g i).foldl (fun a2 j => a2 * f i j) acc) c
      = c * (outer.map (fun i => ((g i).map (f i)).prod)).prod := by
  induction outer generalizing c with
  | nil => simp
  | cons i rest ih =>
    simp only [List.foldl_cons, List.map_cons, List.prod_cons]
    rw [foldl_mul_list (f i) (g i) c, ih, mul_assoc]

theorem linePairProduct_eq {F : Type} [CommRing F] (perm : List F) :
    linePairProduct perm
      = ((List.range 9).map (fun i =>
          ((List.range' (i + 1) (8 - i)).map
            (fun j => perm.getD i 0 - perm.getD j 0)).prod)).prod := by
  unfold linePairProduct
  rw [foldl_foldl_mul (fun i => List.range' (i + 1) (8 - i))
      (fun i j => perm.getD i 0 - perm.getD j 0) (List.range 9) 1, one_mul]

theorem linePairProduct_eq_zero_iff {F : Type} [Field F] (perm : List F) :
    linePairProduct perm = 0 ↔
      ∃ i, i < 9 ∧ ∃ j, i < j ∧ j < 9 ∧ perm.getD i 0 = perm.getD j 0 := by
  rw [linePairProduct_eq, List.prod_eq_zero_iff]
  constructor
  · intro h
    rcases List.mem_map.mp h with ⟨i, hi, hprod⟩
    rw [List.prod_eq_zero_iff] at hprod
    rcases List.mem_map.mp hprod with ⟨j, hj, hdiff⟩
    rw [List.mem_range] at hi
    rw [List.mem_range'_1] at hj
    exact ⟨i, hi, j, by omega, by omega, sub_eq_zero.mp hdiff⟩
  · rintro ⟨i, hi, j, hij, hj, heq⟩
    apply List.mem_map.mpr
    refine ⟨i, List.mem_range.mpr hi, ?_⟩
    rw [List.prod_eq_zero_iff]
    apply List.mem_map.mpr
    exact ⟨j, List.mem_range'_1.mpr ⟨by omega, by omega⟩, sub_eq_zero.mpr heq⟩

theorem lineNonZeroConstraintSat_iff_ne {F : Type} [Field F] (perm : List F) :
    lineNonZeroConstraintSat perm ↔ linePairProduct perm ≠ 0 := by
  constructor
  · rintro ⟨inv, hinv⟩ h0
    rw [h0, zero_mul] at hinv
    exact zero_ne_one hinv
  · intro h
    exact ⟨(linePairProduct perm)⁻¹, mul_inv_cancel₀ h⟩

theorem sudoku_line_sat_iff {F : Type} [Field F] (perm : List F) :
    lineNonZeroConstraintSat perm ↔
      ∀ i < 9, ∀ j < 9, i < j → perm.getD i 0 ≠ perm.getD j 0 := by
  rw [lineNonZeroConstraintSat_iff_ne, Ne, linePairProduct_eq_zero_iff]
  constructor
  · intro h i hi j hj hij heq
    exact h ⟨i, hi, j, hij, hj, heq⟩
  · rintro h ⟨i, hi, j, hij, hj, heq⟩
    exact h i hi j hj hij heq

theorem check_puzzle_sat_iff {F : Type} [Field F] [DecidableEq F] (state : List F) :
    check_puzzle_sat state ↔
      ∀ perm ∈ sudokuLines (nonZeroSudokuCells 0 state),
        ∀ i < 9, ∀ j < 9, i < j → perm.getD i 0 ≠ perm.getD j 0 := by
  unfold check_puzzle_sat
  constructor
  · intro h perm hperm
    exact (sudoku_line_sat_iff perm).mp (h perm hperm)
  · intro h perm hperm
    exact (sudoku_line_sat_iff perm).mpr (h perm hperm)

/-- C7: `check_puzzle` remaps blank (zero) cells at flat index `i` to the
out-of-range value `10 + i`, forms for each of the 27 lines (9 rows then 9
columns then 9 boxes) the product of the 36 pairwise differences of the
line's entries and constrains it non-zero by witnessing an inverse and
requiring product times inverse to equal 1; a line's constraint is
satisfiable exactly when the line's remapped entries are pairwise distinct,
so the whole system is satisfiable exactly when every line is duplicate-free;
the reference solved grid passes and a grid with a duplicated digit in its
first row fails. -/
theorem claim_c7 :
    (∀ (F : Type) [Field F] (perm : List F),
        lineNonZeroConstraintSat perm ↔
          ∀ i < 9, ∀ j < 9, i < j → perm.getD i 0 ≠ perm.getD j 0)
    ∧ (∀ (F : Type) [Field F] [DecidableEq F] (state : List F),
        check_puzzle_sat state ↔
          ∀ perm ∈ sudokuLines (nonZeroSudokuCells 0 state),
            ∀ i < 9, ∀ j < 9, i < j → perm.getD i 0 ≠ perm.getD j 0)
    ∧ check_puzzle_sat sudokuSolvedGrid
    ∧ ¬ check_puzzle_sat sudokuDuplicateGrid := by
  refine ⟨?_, ?_, ?_, ?_⟩
  · intro F instF perm
    exact sudoku_line_sat_iff perm
  · intro F instF instD state
    exact check_puzzle_sat_iff state
  · rw [check_puzzle_sat_iff]
    decide
  · rw [check_puzzle_sat_iff]
    decide

end Taiga
